import Mathlib

/-!
Shallow embedding of `classes_snake.py`: a snake chain of body parts on a
2D integer grid.  `SnakeBodyPart` holds an ID, a position and a head flag;
`Snake` owns an ordered list of parts, a stored length and a move counter.
Python's in-place mutation is modelled by explicit state passing: each
method becomes a function `Snake → Snake` (and `move_combo` additionally
returns the error raised, if any, since the mutated object survives the
exception).
-/

/-- Embeds `SnakeBodyPart.__init__`: ID, x/y position, head flag.
Python integers are `Int`. -/
structure SnakeBodyPart where
  ID : Int
  xpos : Int
  ypos : Int
  is_head : Bool
deriving DecidableEq, Repr

/-- Embeds the `Snake` object's attributes: `snake_length`, `num_moves`,
`snake_body`. -/
structure Snake where
  snake_length : Int
  num_moves : Int
  snake_body : List SnakeBodyPart
deriving DecidableEq, Repr

/-- Embeds `Snake.__initialise_snake_body`: a head part
`SnakeBodyPart(0, [0, 0], is_head=True)` followed by
`SnakeBodyPart(i, [0, -i])` for `i in range(1, snake_length)`.
`range(1, n)` yields `n - 1` values when `n > 1` and none otherwise,
which is `(n - 1).toNat` values with `i = j + 1` for `j` below that. -/
def initialise_snake_body (snake_length : Int) : List SnakeBodyPart :=
  SnakeBodyPart.mk 0 0 0 true ::
    (List.range (snake_length - 1).toNat).map
      (fun j : Nat => SnakeBodyPart.mk ((j : Int) + 1) 0 (-((j : Int) + 1)) false)

/-- Embeds `Snake.__init__(snake_length)`: stores the length, zeroes the
move counter and initialises the body. -/
def mkSnake (snake_length : Int) : Snake :=
  { snake_length := snake_length
    num_moves := 0
    snake_body := initialise_snake_body snake_length }

/-- One iteration of the body-update loop: the assignment
`snake_body[i].xpos, .ypos := snake_body[i-1].xpos, .ypos`.
Both indices exist whenever the loop runs; out-of-range indices leave the
list unchanged (never reached from the loop below). -/
def setPosFromPred (body : List SnakeBodyPart) (i : Nat) : List SnakeBodyPart :=
  match body[i - 1]?, body[i]? with
  | some pred, some cur =>
      body.set i { cur with xpos := pred.xpos, ypos := pred.ypos }
  | _, _ => body

/-- The loop `for i in range(len(self.snake_body) - 1, 0, -1)` of
`Snake.update_body_positions`, run for indices `i, i-1, ..., 1` in that
(descending) order. -/
def updateLoop (body : List SnakeBodyPart) : Nat → List SnakeBodyPart
  | 0 => body
  | k + 1 => updateLoop (setPosFromPred body (k + 1)) k

/-- Embeds `Snake.update_body_positions`: the descending in-place loop
starting at index `len(snake_body) - 1`. -/
def Snake.update_body_positions (s : Snake) : Snake :=
  { s with snake_body := updateLoop s.snake_body (s.snake_body.length - 1) }

/-- `self.snake_body[0].xpos += dx; ... .ypos += dy` (on a constructed
snake the body is never empty; the empty case is unreachable). -/
def bumpHead (dx dy : Int) : List SnakeBodyPart → List SnakeBodyPart
  | [] => []
  | h :: t => { h with xpos := h.xpos + dx, ypos := h.ypos + dy } :: t

/-- Embeds `Snake.move_right`: shift body, increment counter, head x + 1. -/
def Snake.move_right (s : Snake) : Snake :=
  let s1 := s.update_body_positions
  { s1 with num_moves := s1.num_moves + 1, snake_body := bumpHead 1 0 s1.snake_body }

/-- Embeds `Snake.move_left`: shift body, increment counter, head x - 1. -/
def Snake.move_left (s : Snake) : Snake :=
  let s1 := s.update_body_positions
  { s1 with num_moves := s1.num_moves + 1, snake_body := bumpHead (-1) 0 s1.snake_body }

/-- Embeds `Snake.move_up`: shift body, increment counter, head y + 1. -/
def Snake.move_up (s : Snake) : Snake :=
  let s1 := s.update_body_positions
  { s1 with num_moves := s1.num_moves + 1, snake_body := bumpHead 0 1 s1.snake_body }

/-- Embeds `Snake.move_down`: shift body, increment counter, head y - 1. -/
def Snake.move_down (s : Snake) : Snake :=
  let s1 := s.update_body_positions
  { s1 with num_moves := s1.num_moves + 1, snake_body := bumpHead 0 (-1) s1.snake_body }

/-- The four direction tokens dispatched by `move_combo`. -/
inductive Move where
  | right
  | left
  | up
  | down
deriving DecidableEq, Repr

/-- Dispatch of a direction to the corresponding move method. -/
def applyDir (d : Move) (s : Snake) : Snake :=
  match d with
  | .right => s.move_right
  | .left => s.move_left
  | .up => s.move_up
  | .down => s.move_down

/-- The string test of `move_combo`'s dispatch chain: a token is handled
iff it is one of the four literals. -/
def validMove (m : String) : Bool :=
  m == "right" || m == "left" || m == "up" || m == "down"

/-- Embeds `Snake.move_combo` (non-plotting path): tokens are processed in
order; each recognized token performs the corresponding move; the first
unrecognized token raises `Exception(f"Invalid move: {move}")` and stops.
The result pairs the snake state when control leaves the loop (Python
mutates in place, so the state survives the raise) with the raised
message, if any. -/
def Snake.move_combo (s : Snake) : List String → Snake × Option String
  | [] => (s, none)
  | m :: rest =>
    if m == "right" then s.move_right.move_combo rest
    else if m == "left" then s.move_left.move_combo rest
    else if m == "up" then s.move_up.move_combo rest
    else if m == "down" then s.move_down.move_combo rest
    else (s, some ("Invalid move: " ++ m))

/-! ### Derived notions used to state the claims -/

/-- The position of a part, as a pair. -/
def partPos (p : SnakeBodyPart) : Int × Int := (p.xpos, p.ypos)

/-- Copy the predecessor's position onto a part (one simultaneous-update
cell). -/
def follow (pred cur : SnakeBodyPart) : SnakeBodyPart :=
  { cur with xpos := pred.xpos, ypos := pred.ypos }

/-- Modelled from the spec: the *pure simultaneous* body shift — the head
keeps its position and every part `i ≥ 1` receives the pre-shift position
of part `i - 1`, all read from the original list. -/
def shiftPure : List SnakeBodyPart → List SnakeBodyPart
  | [] => []
  | h :: t => h :: List.zipWith follow (h :: t) t

/-- The unit displacement of each direction. -/
def unitVec : Move → Int × Int
  | .right => (1, 0)
  | .left => (-1, 0)
  | .up => (0, 1)
  | .down => (0, -1)

/-- A displacement is a unit vector. -/
def isUnitVec (v : Int × Int) : Bool :=
  v.1.natAbs + v.2.natAbs == 1

/-- How many segments of `s` move by a unit vector under direction `d`. -/
def unitDeltaCount (s : Snake) (d : Move) : Nat :=
  (List.zip s.snake_body (applyDir d s).snake_body).countP
    (fun pc => isUnitVec (pc.2.xpos - pc.1.xpos, pc.2.ypos - pc.1.ypos))

/-- Applying a list of direction tokens through the per-token dispatch of
`move_combo`, ignoring unrecognized tokens (used only on valid tokens). -/
def applyToken (s : Snake) (m : String) : Snake :=
  if m == "right" then s.move_right
  else if m == "left" then s.move_left
  else if m == "up" then s.move_up
  else if m == "down" then s.move_down
  else s

/-- Sequential application of tokens. -/
def applySeq (s : Snake) (ms : List String) : Snake :=
  ms.foldl applyToken s

/-- Sequential application of a list of directions. -/
def applyDirs (s : Snake) (ds : List Move) : Snake :=
  ds.foldl (fun t d => applyDir d t) s

/-! ### Characterization of the destructive update loop -/

theorem setPosFromPred_length (body : List SnakeBodyPart) (i : Nat) :
    (setPosFromPred body i).length = body.length := by
  unfold setPosFromPred
  cases body[i - 1]? <;> cases body[i]? <;> simp

theorem setPosFromPred_getElem_ne (body : List SnakeBodyPart) (i j : Nat) (h : j ≠ i) :
    (setPosFromPred body i)[j]? = body[j]? := by
  unfold setPosFromPred
  cases body[i - 1]? <;> cases body[i]? <;> simp [List.getElem?_set_ne (Ne.symm h)]

theorem setPosFromPred_getElem_self (body : List SnakeBodyPart) (i : Nat)
    (pred cur : SnakeBodyPart) (hp : body[i - 1]? = some pred) (hc : body[i]? = some cur) :
    (setPosFromPred body i)[i]? = some (follow pred cur) := by
  have hi : i < body.length := by
    by_contra hge
    rw [List.getElem?_eq_none (Nat.le_of_not_lt hge)] at hc
    exact Option.noConfusion hc
  unfold setPosFromPred
  rw [hp, hc]
  exact List.getElem?_set_eq_of_lt _ hi

theorem updateLoop_length (body : List SnakeBodyPart) (k : Nat) :
    (updateLoop body k).length = body.length := by
  induction k generalizing body with
  | zero => rfl
  | succ m ih => rw [updateLoop, ih, setPosFromPred_length]

/-- Indices at or below zero, and indices strictly above the loop counter,
are untouched by the descending loop. -/
theorem updateLoop_getElem_of_gt (body : List SnakeBodyPart) (k j : Nat)
    (h : j = 0 ∨ k < j) : (updateLoop body k)[j]? = body[j]? := by
  induction k generalizing body with
  | zero => rfl
  | succ m ih =>
    have hne : j ≠ m + 1 := by omega
    have h' : j = 0 ∨ m < j := by omega
    rw [updateLoop, ih _ h', setPosFromPred_getElem_ne _ _ _ hne]

/-- Each index `1 ≤ j ≤ k` ends the loop holding its predecessor's
pre-loop position: the descending order makes every read see the original
list. -/
theorem updateLoop_getElem (body : List SnakeBodyPart) (k j : Nat)
    (h1 : 1 ≤ j) (h2 : j ≤ k) (hk : k < body.length) :
    (updateLoop body k)[j]? =
      (body[j - 1]?).bind fun pred => (body[j]?).map fun cur => follow pred cur := by
  induction k generalizing body with
  | zero => omega
  | succ m ih =>
    have hjlen : j < body.length := by omega
    have hj1len : j - 1 < body.length := by omega
    rw [updateLoop]
    rcases Nat.lt_or_ge j (m + 1) with hlt | hge
    · have hmlen : m < (setPosFromPred body (m + 1)).length := by
        rw [setPosFromPred_length]; omega
      rw [ih _ (by omega) hmlen]
      rw [setPosFromPred_getElem_ne _ _ _ (by omega),
        setPosFromPred_getElem_ne _ _ _ (by omega)]
    · have hj : j = m + 1 := by omega
      subst hj
      have hm1 : ∃ pm, body[m]? = some pm :=
        ⟨body.get ⟨m, by omega⟩, List.getElem?_eq_getElem (by omega)⟩
      obtain ⟨pm, hpm⟩ := hm1
      have hm2 : ∃ cm, body[m + 1]? = some cm :=
        ⟨body.get ⟨m + 1, hk⟩, List.getElem?_eq_getElem hk⟩
      obtain ⟨cm, hcm⟩ := hm2
      have hset : (setPosFromPred body (m + 1))[m + 1]? = some (follow pm cm) :=
        setPosFromPred_getElem_self body (m + 1) pm cm (by simpa using hpm) hcm
      rw [updateLoop_getElem_of_gt _ _ _ (Or.inr (Nat.lt_succ_self m)), hset]
      simp only [Nat.add_sub_cancel] at *
      rw [hpm, hcm]
      rfl

/-! ### Snake-level helper lemmas -/

theorem shiftPure_length (body : List SnakeBodyPart) :
    (shiftPure body).length = body.length := by
  cases body with
  | nil => rfl
  | cons h t => simp [shiftPure]

theorem bumpHead_length (dx dy : Int) (l : List SnakeBodyPart) :
    (bumpHead dx dy l).length = l.length := by
  cases l <;> rfl

theorem bumpHead_getElem_succ (dx dy : Int) (l : List SnakeBodyPart) (m : Nat) :
    (bumpHead dx dy l)[m + 1]? = l[m + 1]? := by
  cases l <;> rfl

theorem bumpHead_getElem_zero (dx dy : Int) (l : List SnakeBodyPart) :
    (bumpHead dx dy l)[0]? =
      l[0]?.map fun h => { h with xpos := h.xpos + dx, ypos := h.ypos + dy } := by
  cases l <;> simp [bumpHead]

theorem update_body_snake_body (s : Snake) :
    s.update_body_positions.snake_body = updateLoop s.snake_body (s.snake_body.length - 1) :=
  rfl

theorem update_body_getElem_zero (s : Snake) :
    s.update_body_positions.snake_body[0]? = s.snake_body[0]? :=
  updateLoop_getElem_of_gt _ _ _ (Or.inl rfl)

theorem update_body_getElem (s : Snake) (j : Nat) (h1 : 1 ≤ j)
    (h2 : j < s.snake_body.length) :
    s.update_body_positions.snake_body[j]? =
      (s.snake_body[j - 1]?).bind fun pred =>
        (s.snake_body[j]?).map fun cur => follow pred cur :=
  updateLoop_getElem _ _ _ h1 (by omega) (by omega)

theorem update_body_length (s : Snake) :
    s.update_body_positions.snake_body.length = s.snake_body.length :=
  updateLoop_length _ _

theorem applyDir_length (d : Move) (s : Snake) :
    (applyDir d s).snake_body.length = s.snake_body.length := by
  cases d <;>
    simp [applyDir, Snake.move_right, Snake.move_left, Snake.move_up, Snake.move_down,
      bumpHead_length, update_body_length]

theorem applyDir_num_moves (d : Move) (s : Snake) :
    (applyDir d s).num_moves = s.num_moves + 1 := by
  cases d <;> rfl

theorem applyDir_snake_length (d : Move) (s : Snake) :
    (applyDir d s).snake_length = s.snake_length := by
  cases d <;> rfl

theorem applyDir_snake_body (d : Move) (s : Snake) :
    (applyDir d s).snake_body =
      bumpHead (unitVec d).1 (unitVec d).2 s.update_body_positions.snake_body := by
  cases d <;> rfl

/-- After any single move, every non-head index `j` holds the position the
index `j - 1` part held before the move. -/
theorem applyDir_getElem_tail (d : Move) (s : Snake) (j : Nat) (h1 : 1 ≤ j)
    (h2 : j < s.snake_body.length) :
    ((applyDir d s).snake_body[j]?).map partPos = (s.snake_body[j - 1]?).map partPos := by
  obtain ⟨m, rfl⟩ : ∃ m, j = m + 1 := ⟨j - 1, by omega⟩
  rw [applyDir_snake_body, bumpHead_getElem_succ,
    update_body_getElem s (m + 1) h1 h2]
  have hpred : ∃ p, s.snake_body[m]? = some p :=
    ⟨s.snake_body.get ⟨m, by omega⟩, List.getElem?_eq_getElem (by omega)⟩
  have hcur : ∃ c, s.snake_body[m + 1]? = some c :=
    ⟨s.snake_body.get ⟨m + 1, h2⟩, List.getElem?_eq_getElem h2⟩
  obtain ⟨p, hp⟩ := hpred
  obtain ⟨c, hc⟩ := hcur
  simp only [Nat.add_sub_cancel, hp, hc, Option.bind_some, Option.map_some]
  rfl

/-- After any single move, the head's position is the old head position
translated by the move's unit vector. -/
theorem applyDir_getElem_head (d : Move) (s : Snake) :
    (applyDir d s).snake_body[0]? =
      s.snake_body[0]?.map fun h =>
        { h with xpos := h.xpos + (unitVec d).1, ypos := h.ypos + (unitVec d).2 } := by
  rw [applyDir_snake_body, bumpHead_getElem_zero, update_body_getElem_zero]

/-- The destructive descending loop computes the pure simultaneous shift. -/
theorem updateLoop_eq_shiftPure (body : List SnakeBodyPart) :
    updateLoop body (body.length - 1) = shiftPure body := by
  cases body with
  | nil => rfl
  | cons h t =>
    apply List.ext_getElem?
    intro j
    cases j with
    | zero =>
      rw [updateLoop_getElem_of_gt _ _ _ (Or.inl rfl)]
      simp [shiftPure]
    | succ m =>
      rcases Nat.lt_or_ge (m + 1) (h :: t).length with hlt | hge
      · rw [updateLoop_getElem _ _ _ (Nat.le_add_left 1 m) (by simp at hlt ⊢; omega)
          (by simp)]
        simp only [shiftPure, List.getElem?_cons_succ, Nat.add_sub_cancel,
          List.getElem?_zipWith']
        cases hmq : (h :: t)[m]? <;> cases htq : t[m]? <;> simp
      · have hlen : (h :: t).length ≤ m + 1 := hge
        rw [List.getElem?_eq_none (by rw [updateLoop_length]; omega),
          List.getElem?_eq_none (by rw [shiftPure_length]; omega)]

theorem mkSnake_length (n : Int) :
    (mkSnake n).snake_body.length = (n - 1).toNat + 1 := by
  show (initialise_snake_body n).length = _
  rw [initialise_snake_body, List.length_cons, List.length_map, List.length_range]

theorem mkSnake_num_moves (n : Int) : (mkSnake n).num_moves = 0 := rfl

theorem mkSnake_getElem_zero (n : Int) :
    (mkSnake n).snake_body[0]? = some (SnakeBodyPart.mk 0 0 0 true) := by
  show (initialise_snake_body n)[0]? = _
  rw [initialise_snake_body, List.getElem?_cons_zero]

theorem mkSnake_getElem_succ (n : Int) (i : Nat) (h1 : 1 ≤ i) (h2 : (i : Int) < n) :
    (mkSnake n).snake_body[i]? =
      some (SnakeBodyPart.mk (i : Int) 0 (-(i : Int)) false) := by
  obtain ⟨m, rfl⟩ : ∃ m, i = m + 1 := ⟨i - 1, by omega⟩
  have hm : m < (n - 1).toNat := by omega
  show (initialise_snake_body n)[m + 1]? = _
  rw [initialise_snake_body, List.getElem?_cons_succ, List.getElem?_map,
    List.getElem?_range hm]
  simp only [Option.map_some', SnakeBodyPart.mk.injEq]
  push_cast
  simp

/-- The ID and head flag of a part, the data a move never touches. -/
def idHead (p : SnakeBodyPart) : Int × Bool := (p.ID, p.is_head)

theorem update_body_map_idHead (s : Snake) :
    s.update_body_positions.snake_body.map idHead = s.snake_body.map idHead := by
  apply List.ext_getElem?
  intro j
  simp only [List.getElem?_map]
  rcases Nat.eq_zero_or_pos j with hj | hj
  · subst hj
    rw [update_body_getElem_zero]
  · rcases Nat.lt_or_ge j s.snake_body.length with hlt | hge
    · rw [update_body_getElem s j hj hlt]
      obtain ⟨p, hp⟩ : ∃ p, s.snake_body[j - 1]? = some p :=
        ⟨s.snake_body.get ⟨j - 1, by omega⟩, List.getElem?_eq_getElem (by omega)⟩
      obtain ⟨c, hc⟩ : ∃ c, s.snake_body[j]? = some c :=
        ⟨s.snake_body.get ⟨j, hlt⟩, List.getElem?_eq_getElem hlt⟩
      rw [hp, hc]
      rfl
    · rw [List.getElem?_eq_none (by rw [update_body_length]; omega),
        List.getElem?_eq_none hge]

theorem bumpHead_map_idHead (dx dy : Int) (l : List SnakeBodyPart) :
    (bumpHead dx dy l).map idHead = l.map idHead := by
  cases l <;> rfl

theorem applyDir_map_idHead (d : Move) (s : Snake) :
    (applyDir d s).snake_body.map idHead = s.snake_body.map idHead := by
  rw [applyDir_snake_body, bumpHead_map_idHead, update_body_map_idHead]

/-- Closed form of `move_combo`: the valid leading tokens are applied in
order, the first invalid token (if any) raises and stops. -/
theorem move_combo_eq (s : Snake) (toks : List String) :
    s.move_combo toks =
      (applySeq s (toks.takeWhile validMove),
        ((toks.dropWhile validMove).head?).map (fun m => "Invalid move: " ++ m)) := by
  induction toks generalizing s with
  | nil => rfl
  | cons m rest ih =>
    rw [Snake.move_combo]
    by_cases h1 : (m == "right") = true
    · have hv : validMove m = true := by simp [validMove, h1]
      simp [h1, hv, ih, applySeq, applyToken]
    · by_cases h2 : (m == "left") = true
      · have hv : validMove m = true := by simp [validMove, h2]
        simp [h1, h2, hv, ih, applySeq, applyToken]
      · by_cases h3 : (m == "up") = true
        · have hv : validMove m = true := by simp [validMove, h3]
          simp [h1, h2, h3, hv, ih, applySeq, applyToken]
        · by_cases h4 : (m == "down") = true
          · have hv : validMove m = true := by simp [validMove, h4]
            simp [h1, h2, h3, h4, hv, ih, applySeq, applyToken]
          · have hv : validMove m = false := by
              simp [validMove, h1, h2, h3, h4]
            simp [h1, h2, h3, h4, hv, applySeq]

theorem applyDirs_length (ds : List Move) (s : Snake) :
    (applyDirs s ds).snake_body.length = s.snake_body.length := by
  induction ds generalizing s with
  | nil => rfl
  | cons d ds ih =>
    show (applyDirs (applyDir d s) ds).snake_body.length = _
    rw [ih, applyDir_length]

/-! ### Claims -/

/-- C1: for every chain of length `n ≥ 2` and every sequence of valid
moves, after each move, every non-head index `i ∈ [1, n-1]` holds exactly
the position index `i - 1` held immediately before that move. -/
theorem C1_trailing_invariant (n : Int) (ds : List Move) (d : Move) (i : Nat)
    (hn : 2 ≤ n) (h1 : 1 ≤ i) (h2 : (i : Int) < n) :
    ((applyDir d (applyDirs (mkSnake n) ds)).snake_body[i]?).map partPos =
      ((applyDirs (mkSnake n) ds).snake_body[i - 1]?).map partPos := by
  apply applyDir_getElem_tail _ _ _ h1
  rw [applyDirs_length, mkSnake_length]
  omega

theorem C1_trailing_invariant_witness :
    2 ≤ (3 : Int) ∧ 1 ≤ 1 ∧ ((1 : Nat) : Int) < 3 ∧
    ((applyDir Move.right (applyDirs (mkSnake 3) [])).snake_body[1]?).map partPos =
      ((applyDirs (mkSnake 3) []).snake_body[0]?).map partPos :=
  ⟨by decide, by decide, by decide,
    C1_trailing_invariant 3 [] Move.right 1 (by decide) (by decide) (by decide)⟩

/-- C2: the descending destructive loop of `update_body_positions` equals
the pure simultaneous shift (`shiftPure`, written from the spec's words):
every index `i ≥ 1` receives its predecessor's pre-shift position and the
head's position is untouched, for every chain state. -/
theorem C2_loop_refines_simultaneous (s : Snake) :
    s.update_body_positions = { s with snake_body := shiftPure s.snake_body } := by
  show { s with snake_body := updateLoop s.snake_body (s.snake_body.length - 1) } = _
  rw [updateLoop_eq_shiftPure]

/-- C3: from the fresh length-3 chain `[(0,0), (0,-1), (0,-2)]` with
counter `0`, moving right gives `[(1,0), (0,0), (0,-1)]` and counter `1`,
and then moving up gives `[(1,1), (1,0), (0,0)]` and counter `2`. -/
theorem C3_scenario :
    ((mkSnake 3).snake_body.map partPos = [(0, 0), (0, -1), (0, -2)] ∧
      (mkSnake 3).num_moves = 0) ∧
    ((mkSnake 3).move_right.snake_body.map partPos = [(1, 0), (0, 0), (0, -1)] ∧
      (mkSnake 3).move_right.num_moves = 1) ∧
    ((mkSnake 3).move_right.move_up.snake_body.map partPos = [(1, 1), (1, 0), (0, 0)] ∧
      (mkSnake 3).move_right.move_up.num_moves = 2) := by
  decide

/-- C4: `move_combo` applies exactly the valid leading tokens, raises
`Invalid move: ...` iff some token is invalid (stopping at the first one,
whose move and later moves are not applied), and on `["diagonal"]` a
fresh chain is left unchanged with the error raised. -/
theorem C4_move_combo_error (s : Snake) (toks : List String) :
    (s.move_combo toks =
      (applySeq s (toks.takeWhile validMove),
        ((toks.dropWhile validMove).head?).map (fun m => "Invalid move: " ++ m))) ∧
    ((s.move_combo toks).2 ≠ none ↔ ∃ m ∈ toks, validMove m = false) ∧
    (mkSnake 3).move_combo ["diagonal"] = (mkSnake 3, some "Invalid move: diagonal") := by
  refine ⟨move_combo_eq s toks, ?_, by decide⟩
  rw [move_combo_eq]
  simp only [ne_eq, Option.map_eq_none', List.head?_eq_none_iff,
    List.dropWhile_eq_nil_iff, Bool.not_eq_true]
  constructor
  · intro h
    by_contra hall
    push_neg at hall
    exact h fun x hx => Bool.ne_false_iff.mp (hall x hx)
  · rintro ⟨m, hm, hmf⟩ hall
    rw [hall m hm] at hmf
    exact Bool.noConfusion hmf

/-- C5 counterexample: on the fresh length-2 chain, `move_up` changes the
positions of BOTH segments by a unit vector (head `(0,0) → (0,1)`, tail
`(0,-1) → (0,0)`), so "exactly one segment's coordinates change by a unit
vector" is false. -/
theorem C5_counterexample :
    unitDeltaCount (mkSnake 2) Move.up = 2 ∧ unitDeltaCount (mkSnake 2) Move.up ≠ 1 := by
  decide

/-- C5 amended: per move the head is displaced by exactly the move's unit
vector, and every other segment's position becomes its predecessor's
pre-move position (equal to its own prior position precisely when it
overlapped its predecessor); trailing segments may incidentally also move
by a unit vector. -/
theorem C5_head_displacement (d : Move) (s : Snake) (i : Nat) (h1 : 1 ≤ i)
    (h2 : i < s.snake_body.length) :
    ((applyDir d s).snake_body[0]?).map partPos =
      (s.snake_body[0]?).map (fun p => (p.xpos + (unitVec d).1, p.ypos + (unitVec d).2)) ∧
    ((applyDir d s).snake_body[i]?).map partPos = (s.snake_body[i - 1]?).map partPos ∧
    (((applyDir d s).snake_body[i]?).map partPos = (s.snake_body[i]?).map partPos ↔
      (s.snake_body[i - 1]?).map partPos = (s.snake_body[i]?).map partPos) := by
  refine ⟨?_, applyDir_getElem_tail d s i h1 h2, ?_⟩
  · rw [applyDir_getElem_head]
    cases s.snake_body[0]? <;> simp [partPos]
  · rw [applyDir_getElem_tail d s i h1 h2]

theorem C5_head_displacement_witness :
    1 ≤ 1 ∧ 1 < (mkSnake 2).snake_body.length ∧
    (((applyDir Move.right (mkSnake 2)).snake_body[0]?).map partPos =
      ((mkSnake 2).snake_body[0]?).map
        (fun p => (p.xpos + (unitVec Move.right).1, p.ypos + (unitVec Move.right).2)) ∧
    ((applyDir Move.right (mkSnake 2)).snake_body[1]?).map partPos =
      ((mkSnake 2).snake_body[0]?).map partPos ∧
    (((applyDir Move.right (mkSnake 2)).snake_body[1]?).map partPos =
        ((mkSnake 2).snake_body[1]?).map partPos ↔
      ((mkSnake 2).snake_body[0]?).map partPos =
        ((mkSnake 2).snake_body[1]?).map partPos)) :=
  ⟨by decide, by decide, C5_head_displacement Move.right (mkSnake 2) 1 (by decide) (by decide)⟩

/-- C6 counterexample: on the fresh length-2 chain, `move_right` then
`move_left` does NOT restore the pre-pair state: the tail ends at the head's
old position `(1,0)` instead of `(0,-1)`, and `num_moves` has grown by 2. -/
theorem C6_counterexample :
    (mkSnake 2).move_right.move_left ≠ mkSnake 2 ∧
    (mkSnake 2).move_right.move_left.snake_body.map partPos = [(0, 0), (1, 0)] ∧
    (mkSnake 2).snake_body.map partPos = [(0, 0), (0, -1)] ∧
    (mkSnake 2).move_right.move_left.num_moves = 2 := by
  decide

/-- C6 amended: `move_right` then `move_left` (and `move_up` then
`move_down`) restores the head's position, but increases `num_moves` by
exactly 2, and trailing segments are in general not restored. -/
theorem C6_head_restored (s : Snake) :
    ((s.move_right.move_left.snake_body[0]?).map partPos =
        (s.snake_body[0]?).map partPos ∧
      s.move_right.move_left.num_moves = s.num_moves + 2) ∧
    ((s.move_up.move_down.snake_body[0]?).map partPos =
        (s.snake_body[0]?).map partPos ∧
      s.move_up.move_down.num_moves = s.num_moves + 2) := by
  constructor
  · constructor
    · show ((applyDir Move.left (applyDir Move.right s)).snake_body[0]?).map partPos = _
      rw [applyDir_getElem_head, applyDir_getElem_head]
      cases s.snake_body[0]? <;> simp [partPos, unitVec]
    · show (applyDir Move.left (applyDir Move.right s)).num_moves = _
      rw [applyDir_num_moves, applyDir_num_moves]
      ring
  · constructor
    · show ((applyDir Move.down (applyDir Move.up s)).snake_body[0]?).map partPos = _
      rw [applyDir_getElem_head, applyDir_getElem_head]
      cases s.snake_body[0]? <;> simp [partPos, unitVec]
    · show (applyDir Move.down (applyDir Move.up s)).num_moves = _
      rw [applyDir_num_moves, applyDir_num_moves]
      ring

/-- C7: the move counter starts at 0, every move of any direction adds
exactly 1, and a rejected token aborts `move_combo` immediately, leaving
the whole state (counter included) untouched. -/
theorem C7_move_counter (n : Int) (s : Snake) (d : Move) (m : String)
    (rest : List String) (hm : validMove m = false) :
    (mkSnake n).num_moves = 0 ∧
    (applyDir d s).num_moves = s.num_moves + 1 ∧
    s.move_combo (m :: rest) = (s, some ("Invalid move: " ++ m)) := by
  refine ⟨rfl, applyDir_num_moves d s, ?_⟩
  rw [move_combo_eq]
  simp [List.takeWhile_cons, List.dropWhile_cons, hm, applySeq]

theorem C7_move_counter_witness :
    validMove "diagonal" = false ∧
    ((mkSnake 5).num_moves = 0 ∧
      (applyDir Move.up (mkSnake 3)).num_moves = (mkSnake 3).num_moves + 1 ∧
      (mkSnake 3).move_combo ["diagonal"] = (mkSnake 3, some "Invalid move: diagonal")) :=
  ⟨by decide, C7_move_counter 5 (mkSnake 3) Move.up "diagonal" [] (by decide)⟩

/-- C8: for length `n ≥ 1`, construction yields exactly `n` segments:
index 0 is the head `⟨id 0, (0,0), is head⟩`, index `i ∈ [1, n-1]` is
`⟨id i, (0,-i), not head⟩`, and the counter is 0. -/
theorem C8_initial_layout (n : Int) (hn : 1 ≤ n) :
    ((mkSnake n).snake_body.length : Int) = n ∧
    (mkSnake n).num_moves = 0 ∧
    (mkSnake n).snake_body[0]? = some (SnakeBodyPart.mk 0 0 0 true) ∧
    ∀ i : Nat, 1 ≤ i → (i : Int) < n →
      (mkSnake n).snake_body[i]? = some (SnakeBodyPart.mk (i : Int) 0 (-(i : Int)) false) := by
  refine ⟨?_, rfl, mkSnake_getElem_zero n, fun i h1 h2 => mkSnake_getElem_succ n i h1 h2⟩
  rw [mkSnake_length]
  push_cast
  omega

theorem C8_initial_layout_witness :
    (1 ≤ (3 : Int) ∧
      ((mkSnake 3).snake_body.length : Int) = 3 ∧
      (mkSnake 3).num_moves = 0 ∧
      (mkSnake 3).snake_body[0]? = some (SnakeBodyPart.mk 0 0 0 true) ∧
      (mkSnake 3).snake_body[2]? =
        some (SnakeBodyPart.mk ((2 : Nat) : Int) 0 (-((2 : Nat) : Int)) false)) ∧
    (1 ≤ (1 : Int) ∧
      ((mkSnake 1).snake_body.length : Int) = 1 ∧
      (mkSnake 1).num_moves = 0 ∧
      (mkSnake 1).snake_body[0]? = some (SnakeBodyPart.mk 0 0 0 true)) :=
  ⟨⟨by decide, (C8_initial_layout 3 (by decide)).1, (C8_initial_layout 3 (by decide)).2.1,
      (C8_initial_layout 3 (by decide)).2.2.1,
      (C8_initial_layout 3 (by decide)).2.2.2 2 (by decide) (by decide)⟩,
    ⟨by decide, (C8_initial_layout 1 (by decide)).1, (C8_initial_layout 1 (by decide)).2.1,
      (C8_initial_layout 1 (by decide)).2.2.1⟩⟩

/-- C9: any requested length `≤ 1` (0 and negative values included) still
constructs a single-segment chain holding only the head at `(0,0)`; on a
chain of at most one segment the body shift is the identity, and every
move still succeeds, translating the head by the move's unit vector and
adding 1 to the counter. -/
theorem C9_degenerate_length (n : Int) (s : Snake) (d : Move) (hn : n ≤ 1)
    (hs : s.snake_body.length ≤ 1) :
    (mkSnake n).snake_body = [SnakeBodyPart.mk 0 0 0 true] ∧
    s.update_body_positions = s ∧
    (applyDir d s).num_moves = s.num_moves + 1 ∧
    ((applyDir d s).snake_body[0]?).map partPos =
      (s.snake_body[0]?).map (fun p => (p.xpos + (unitVec d).1, p.ypos + (unitVec d).2)) := by
  refine ⟨?_, ?_, applyDir_num_moves d s, ?_⟩
  · have h0 : (n - 1).toNat = 0 := by omega
    simp [mkSnake, initialise_snake_body, h0]
  · have h0 : s.snake_body.length - 1 = 0 := by omega
    show { s with snake_body := updateLoop s.snake_body (s.snake_body.length - 1) } = s
    rw [h0]
    rfl
  · rw [applyDir_getElem_head]
    cases s.snake_body[0]? <;> simp [partPos]

theorem C9_degenerate_length_witness :
    (0 : Int) ≤ 1 ∧ (mkSnake 0).snake_body.length ≤ 1 ∧
    ((mkSnake 0).snake_body = [SnakeBodyPart.mk 0 0 0 true] ∧
      (mkSnake 0).update_body_positions = mkSnake 0 ∧
      (applyDir Move.left (mkSnake 0)).num_moves = (mkSnake 0).num_moves + 1 ∧
      ((applyDir Move.left (mkSnake 0)).snake_body[0]?).map partPos =
        ((mkSnake 0).snake_body[0]?).map
          (fun p => (p.xpos + (unitVec Move.left).1, p.ypos + (unitVec Move.left).2))) :=
  ⟨by decide, by decide, C9_degenerate_length 0 (mkSnake 0) Move.left (by decide) (by decide)⟩

/-- C10: every move preserves the number of segments, the stored
`snake_length`, and each segment's ID and head flag; only positions and
the counter change. -/
theorem C10_frame (d : Move) (s : Snake) :
    (applyDir d s).snake_body.length = s.snake_body.length ∧
    (applyDir d s).snake_length = s.snake_length ∧
    (applyDir d s).snake_body.map idHead = s.snake_body.map idHead :=
  ⟨applyDir_length d s, applyDir_snake_length d s, applyDir_map_idHead d s⟩

